import Mathlib

/-!
Shallow embedding of the sequencing core of the kivy-mrbeat drum machine
(files audio_source_track.py and audio_source_mixer.py), together with
theorems checking the natural-language specification against it.

Modelling conventions:
- Python floats used for tempo and durations are modelled as exact
  rationals; both the mixer and every track compute step durations with
  the same expression 15.0 / bpm, so equalities between them are
  preserved by the exact model.
- Python int() truncation toward zero is modelled by pyTrunc.
- A Python method that raises ValueError is modelled with Except whose
  error value carries the state at raise time, making "state unchanged
  on failure" an explicit equation.
- The wall-clock time checks of the busy-poll loops are abstracted by a
  Boolean step_due parameter: one loop iteration either finds the step
  timer expired or not.
- The UI callback on_current_step_changed is modelled by a Boolean
  presence flag plus an Option Int notification output: some d means the
  callback was invoked with display index d, none means it was not
  invoked during that iteration.
-/

/-- Python int() truncation toward zero on a rational. -/
def pyTrunc (q : ℚ) : ℤ :=
  if 0 ≤ q then ⌊q⌋ else ⌈q⌉

/-- AudioSourceTrack state: the fields of audio_source_track.py relevant
to sequencing (pygame handles, locks and raw sample bytes are omitted;
only the sample count nb_wav_samples is kept). -/
structure AudioSourceTrack where
  nb_wav_samples : Nat
  bpm : ℚ
  min_bpm : ℚ
  sample_rate : ℚ
  steps : List ℤ
  current_step_index : Nat
  is_running : Bool
  step_nb_samples : ℤ
  buffer_nb_samples : ℤ
  step_duration : ℚ
deriving Repr, DecidableEq

/-- AudioSourceTrack._compute_step_nb_samples: samples per step,
int(sample_rate * 15 / bpm_value), 0 when bpm_value is 0. -/
def computeStepNbSamples (sample_rate bpm_value : ℚ) : ℤ :=
  if bpm_value ≠ 0 then pyTrunc (sample_rate * 15 / bpm_value) else 0

/-- AudioSourceTrack._calculate_step_duration: step_duration := 15.0/bpm
when bpm > 0, else 0.0. -/
def AudioSourceTrack.calculate_step_duration (t : AudioSourceTrack) :
    AudioSourceTrack :=
  if 0 < t.bpm then { t with step_duration := 15 / t.bpm }
  else { t with step_duration := 0 }

/-- AudioSourceTrack.__init__: empty pattern, cursor 0, not running,
buffer sizes from bpm and min_bpm, step duration from bpm.  The final
"validate and adjust" block of __init__ recomputes
int(sample_rate * 15 / bpm), the same expression as
_compute_step_nb_samples, so it leaves step_nb_samples unchanged. -/
def AudioSourceTrack.make (nb_wav : Nat) (bpm sample_rate min_bpm : ℚ) :
    AudioSourceTrack :=
  AudioSourceTrack.calculate_step_duration
    { nb_wav_samples := nb_wav
      bpm := bpm
      min_bpm := min_bpm
      sample_rate := sample_rate
      steps := []
      current_step_index := 0
      is_running := false
      step_nb_samples := computeStepNbSamples sample_rate bpm
      buffer_nb_samples := computeStepNbSamples sample_rate min_bpm
      step_duration := 0 }

/-- AudioSourceTrack.set_steps: reset the cursor when the pattern length
changes, then replace the pattern (lines 271-276). -/
def AudioSourceTrack.set_steps (t : AudioSourceTrack) (steps : List ℤ) :
    AudioSourceTrack :=
  let t1 := if steps.length ≠ t.steps.length
    then { t with current_step_index := 0 } else t
  { t1 with steps := steps }

/-- AudioSourceTrack.set_bpm: raise ValueError when bpm <= 0 (before any
mutation: the error carries the unchanged track); otherwise update bpm,
step_nb_samples and step_duration (lines 295-301). -/
def AudioSourceTrack.set_bpm (t : AudioSourceTrack) (bpm : ℚ) :
    Except (String × AudioSourceTrack) AudioSourceTrack :=
  if bpm ≤ 0 then .error ("BPM must be greater than 0", t)
  else .ok (AudioSourceTrack.calculate_step_duration
    { t with
      bpm := bpm
      step_nb_samples := computeStepNbSamples t.sample_rate bpm })

/-- AudioSourceTrack._no_steps_activated: true when the pattern is empty
or no entry equals 1 (lines 313-316). -/
def AudioSourceTrack.no_steps_activated (t : AudioSourceTrack) : Bool :=
  if t.steps.length = 0 then true
  else ! t.steps.any (fun step => step == 1)

/-- AudioSourceTrack._process_current_step: the guarded read of
steps[current_step_index] and the trigger decision (lines 219-222).
Returns some trig when the body runs without an out-of-bounds read
(trig = true iff _trigger_audio_sample is called), none if the read
steps[current_step_index] would be out of bounds. -/
def AudioSourceTrack.process_current_step (t : AudioSourceTrack) :
    Option Bool :=
  if t.no_steps_activated = false ∧ t.steps.length > t.current_step_index
  then
    match t.steps.get? t.current_step_index with
    | some v => some (v == 1)
    | none => none
  else some false

/-- One due iteration of AudioSourceTrack._sequencer_loop (lines 199-207):
process the current step, then advance the cursor by 1, wrapping to 0 at
len(steps).  Returns the new state and whether the sample was triggered. -/
def AudioSourceTrack.sequencer_tick (t : AudioSourceTrack) :
    AudioSourceTrack × Bool :=
  let trig := (t.process_current_step).getD false
  let idx := t.current_step_index + 1
  let idx := if idx ≥ t.steps.length then 0 else idx
  ({ t with current_step_index := idx }, trig)

/-- AudioSourceTrack.start (lines 158-162): mark running. -/
def AudioSourceTrack.start (t : AudioSourceTrack) : AudioSourceTrack :=
  if t.is_running then t else { t with is_running := true }

/-- AudioSourceTrack.stop (lines 172-174): mark stopped. -/
def AudioSourceTrack.stop (t : AudioSourceTrack) : AudioSourceTrack :=
  if t.is_running then { t with is_running := false } else t

/-- Iterate due sequencer-loop iterations of a track. -/
def AudioSourceTrack.run (t : AudioSourceTrack) : Nat → AudioSourceTrack
  | 0 => t
  | n + 1 => (AudioSourceTrack.run t n).sequencer_tick.1

/-- The sequence of trigger decisions of a track over its first n due
loop iterations. -/
def AudioSourceTrack.trigger_seq (t : AudioSourceTrack) (n : Nat) :
    List Bool :=
  (List.range n).map (fun k => ((AudioSourceTrack.run t k).sequencer_tick).2)

/-- AudioSourceMixer state: the fields of audio_source_mixer.py relevant
to sequencing.  has_step_callback models whether on_current_step_changed
is not None. -/
structure AudioSourceMixer where
  bpm : ℚ
  min_bpm : ℚ
  sample_rate : ℚ
  nb_steps : Nat
  current_step_index : Nat
  is_playing : Bool
  is_running : Bool
  has_step_callback : Bool
  step_duration : ℚ
  tracks : List AudioSourceTrack
deriving Repr, DecidableEq

/-- AudioSourceMixer._calculate_step_duration (lines 196-202): same
15.0 / bpm formula as the track's. -/
def AudioSourceMixer.calculate_step_duration (m : AudioSourceMixer) :
    AudioSourceMixer :=
  if 0 < m.bpm then { m with step_duration := 15 / m.bpm }
  else { m with step_duration := 0 }

/-- AudioSourceMixer._initialize_tracks (lines 176-191): one track per
sample set, each given the empty all-zero pattern of length nb_steps.
Each element of all_wav_nb is the sample count of one wav buffer. -/
def AudioSourceMixer.make_tracks (all_wav_nb : List Nat)
    (bpm sample_rate : ℚ) (nb_steps : Nat) (min_bpm : ℚ) :
    List AudioSourceTrack :=
  all_wav_nb.map (fun nb =>
    (AudioSourceTrack.make nb bpm sample_rate min_bpm).set_steps
      (List.replicate nb_steps (0 : ℤ)))

/-- AudioSourceMixer.__init__: cursor 0, not playing, not running,
tracks initialized with empty patterns, step duration computed last. -/
def AudioSourceMixer.make (all_wav_nb : List Nat) (bpm sample_rate : ℚ)
    (nb_steps : Nat) (min_bpm : ℚ) : AudioSourceMixer :=
  AudioSourceMixer.calculate_step_duration
    { bpm := bpm
      min_bpm := min_bpm
      sample_rate := sample_rate
      nb_steps := nb_steps
      current_step_index := 0
      is_playing := false
      is_running := false
      has_step_callback := true
      step_duration := 0
      tracks := AudioSourceMixer.make_tracks all_wav_nb bpm sample_rate
        nb_steps min_bpm }

/-- The display index computation of _process_master_step
(lines 285-287): subtract 2, and add nb_steps once when negative. -/
def display_step_index (idx nb_steps : Nat) : ℤ :=
  let d : ℤ := (idx : ℤ) - 2
  if d < 0 then d + (nb_steps : ℤ) else d

/-- AudioSourceMixer._process_master_step (lines 280-294): notify the UI
callback with the lag-compensated display index when a callback is set,
then advance the master cursor by 1, wrapping to 0 at nb_steps. -/
def AudioSourceMixer.process_master_step (m : AudioSourceMixer) :
    AudioSourceMixer × Option ℤ :=
  let notif := if m.has_step_callback
    then some (display_step_index m.current_step_index m.nb_steps)
    else none
  let idx := m.current_step_index + 1
  let idx := if idx ≥ m.nb_steps then 0 else idx
  ({ m with current_step_index := idx }, notif)

/-- One iteration of AudioSourceMixer._master_sequencer_loop
(lines 262-271): the body runs _process_master_step only when is_playing
and the step timer has expired (step_due). -/
def AudioSourceMixer.master_loop_iter (m : AudioSourceMixer)
    (step_due : Bool) : AudioSourceMixer × Option ℤ :=
  if m.is_playing && step_due then m.process_master_step
  else (m, none)

/-- Replace the pattern of the i-th track via AudioSourceTrack.set_steps,
leaving the other tracks untouched (the body of
AudioSourceMixer.set_steps, line 325). -/
def set_nth_track (ts : List AudioSourceTrack) (i : Nat)
    (steps : List ℤ) : List AudioSourceTrack :=
  match ts, i with
  | [], _ => []
  | t :: rest, 0 => t.set_steps steps :: rest
  | t :: rest, n + 1 => t :: set_nth_track rest n steps

/-- AudioSourceMixer.set_steps (lines 314-326): reject an out-of-range
track index or a pattern whose length differs from nb_steps, otherwise
forward to the indexed track. -/
def AudioSourceMixer.set_steps (m : AudioSourceMixer) (track_index : ℤ)
    (steps : List ℤ) : Bool × AudioSourceMixer :=
  if track_index ≥ (m.tracks.length : ℤ) ∨ track_index < 0 then (false, m)
  else if steps.length ≠ m.nb_steps then (false, m)
  else (true, { m with tracks := set_nth_track m.tracks track_index.toNat steps })

/-- The track-update loop of AudioSourceMixer.set_bpm (lines 354-355):
apply AudioSourceTrack.set_bpm to each track in order; a ValueError from
one track aborts the loop, leaving that track and the later ones
unchanged (the error carries the resulting track list). -/
def set_bpm_tracks (ts : List AudioSourceTrack) (bpm : ℚ) :
    Except (String × List AudioSourceTrack) (List AudioSourceTrack) :=
  match ts with
  | [] => .ok []
  | t :: rest =>
    match t.set_bpm bpm with
    | .error (e, t0) => .error (e, t0 :: rest)
    | .ok t' =>
      match set_bpm_tracks rest bpm with
      | .error (e, rest') => .error (e, t' :: rest')
      | .ok rest' => .ok (t' :: rest')

/-- AudioSourceMixer.set_bpm (lines 345-357): reject bpm below min_bpm;
otherwise set the master bpm, recompute the master step duration and
propagate to every track.  A ValueError raised by a track (bpm <= 0)
propagates out of set_bpm after the master fields were already mutated:
the error carries that partially mutated state. -/
def AudioSourceMixer.set_bpm (m : AudioSourceMixer) (bpm : ℚ) :
    Except (String × AudioSourceMixer) (Bool × AudioSourceMixer) :=
  if bpm < m.min_bpm then .ok (false, m)
  else
    let m1 := AudioSourceMixer.calculate_step_duration { m with bpm := bpm }
    match set_bpm_tracks m1.tracks bpm with
    | .error (e, ts) => .error (e, { m1 with tracks := ts })
    | .ok ts => .ok (true, { m1 with tracks := ts })

/-- AudioSourceMixer.audio_play (lines 371-372): set is_playing. -/
def AudioSourceMixer.audio_play (m : AudioSourceMixer) : AudioSourceMixer :=
  { m with is_playing := true }

/-- AudioSourceMixer.audio_stop (lines 382-383): clear is_playing. -/
def AudioSourceMixer.audio_stop (m : AudioSourceMixer) : AudioSourceMixer :=
  { m with is_playing := false }

/-- AudioSourceMixer.start (lines 217-227): mark running and start every
track. -/
def AudioSourceMixer.start (m : AudioSourceMixer) : AudioSourceMixer :=
  if m.is_running then m
  else { m with
    is_running := true
    tracks := m.tracks.map AudioSourceTrack.start }

/-- AudioSourceMixer.stop (lines 238-249): mark stopped, clear
is_playing, stop every track. -/
def AudioSourceMixer.stop (m : AudioSourceMixer) : AudioSourceMixer :=
  if m.is_running then
    { m with
      is_running := false
      is_playing := false
      tracks := m.tracks.map AudioSourceTrack.stop }
  else m

/-- Apply one due sequencer-loop iteration to the i-th track (each track
runs its own loop; a tick of track i touches only track i). -/
def tick_nth_track (ts : List AudioSourceTrack) (i : Nat) :
    List AudioSourceTrack :=
  match ts, i with
  | [], _ => []
  | t :: rest, 0 => t.sequencer_tick.1 :: rest
  | t :: rest, n + 1 => t :: tick_nth_track rest n

/-- The operations applicable to a mixer after construction. -/
inductive MixerOp where
  | setSteps (track_index : ℤ) (steps : List ℤ)
  | setBpm (bpm : ℚ)
  | audioPlay
  | audioStop
  | startOp
  | stopOp
  | masterTick (step_due : Bool)
  | trackTick (i : Nat)
deriving Repr, DecidableEq

/-- Apply one mixer operation; for set_bpm the resulting state is kept
whether the call returns or raises. -/
def applyOp (m : AudioSourceMixer) : MixerOp → AudioSourceMixer
  | .setSteps i p => (m.set_steps i p).2
  | .setBpm b =>
    match m.set_bpm b with
    | .ok (_, m') => m'
    | .error (_, m') => m'
  | .audioPlay => m.audio_play
  | .audioStop => m.audio_stop
  | .startOp => m.start
  | .stopOp => m.stop
  | .masterTick d => (m.master_loop_iter d).1
  | .trackTick i => { m with tracks := tick_nth_track m.tracks i }

/-- Run a sequence of mixer operations from a state. -/
def run_ops (m : AudioSourceMixer) (ops : List MixerOp) : AudioSourceMixer :=
  ops.foldl applyOp m

/-- Iterate due master steps. -/
def AudioSourceMixer.master_run (m : AudioSourceMixer) :
    Nat → AudioSourceMixer
  | 0 => m
  | n + 1 => (AudioSourceMixer.master_run m n).process_master_step.1

/-- The trigger-decision sequences of all tracks of a mixer over their
first n due iterations. -/
def AudioSourceMixer.tracks_trigger_seqs (m : AudioSourceMixer) (n : Nat) :
    List (List Bool) :=
  m.tracks.map (fun t => t.trigger_seq n)

/-- Every track pattern has the master length. -/
def pattern_length_inv (m : AudioSourceMixer) : Prop :=
  ∀ t ∈ m.tracks, t.steps.length = m.nb_steps

/-- C10: processing a tick never reads the pattern out of bounds: for every
track state, with any pattern (including the initial empty one) and any
cursor value, the guarded read in _process_current_step stays in bounds,
so the embedded tick function never reaches the out-of-bounds marker. -/
theorem process_current_step_total (t : AudioSourceTrack) :
    t.process_current_step ≠ none := by
  unfold AudioSourceTrack.process_current_step
  split
  · next h =>
    rw [List.get?_eq_get h.2]
    simp
  · simp

/-- C9: a track whose pattern has no active flag (all entries 0,
including the empty pattern) never triggers playback of its sample
buffer, regardless of the cursor position. -/
theorem all_zero_pattern_never_triggers (t : AudioSourceTrack)
    (h : ∀ s ∈ t.steps, s = 0) :
    t.process_current_step = some false ∧ t.sequencer_tick.2 = false := by
  have hna : t.no_steps_activated = true := by
    unfold AudioSourceTrack.no_steps_activated
    split
    · rfl
    · simp only [Bool.not_eq_true']
      rw [List.any_eq_false]
      intro x hx
      simp [h x hx]
  have hp : t.process_current_step = some false := by
    unfold AudioSourceTrack.process_current_step
    rw [if_neg]
    intro hcon
    rw [hna] at hcon
    exact absurd hcon.1 (by simp)
  refine ⟨hp, ?_⟩
  unfold AudioSourceTrack.sequencer_tick
  rw [hp]
  rfl

/-- Concrete all-zero-pattern track (cursor moved to 2 by two ticks). -/
def track_w9 : AudioSourceTrack :=
  ((AudioSourceTrack.make 4 120 44100 60).set_steps
    (List.replicate 4 (0 : ℤ))).run 2

theorem all_zero_pattern_never_triggers_witness :
    (∀ s ∈ track_w9.steps, s = 0) ∧
    (track_w9.process_current_step = some false ∧
      track_w9.sequencer_tick.2 = false) :=
  ⟨by decide, all_zero_pattern_never_triggers track_w9 (by decide)⟩

/-- C7: the per-tick trigger decisions of the tracks do not depend on the
mixer is_playing flag: stopping audio (audio_stop) and playing
(audio_play) produce states that differ in is_playing, yet every track
has the identical sequence of trigger decisions in both runs. -/
theorem track_triggers_independent_of_is_playing
    (m : AudioSourceMixer) (n : Nat) :
    m.audio_stop.is_playing = false ∧ m.audio_play.is_playing = true ∧
    m.audio_stop.tracks_trigger_seqs n = m.audio_play.tracks_trigger_seqs n :=
  ⟨rfl, rfl, rfl⟩

/-- C2: while is_playing is false, an iteration of the master timing loop
leaves current_step_index unchanged and does not invoke the Notification
Sink, whether or not the step timer has expired. -/
theorem master_loop_frozen_when_stopped (m : AudioSourceMixer)
    (step_due : Bool) (h : m.is_playing = false) :
    (m.master_loop_iter step_due).1.current_step_index =
      m.current_step_index ∧
    (m.master_loop_iter step_due).2 = none := by
  unfold AudioSourceMixer.master_loop_iter
  rw [h]
  simp

/-- Concrete freshly built stopped mixer. -/
def mixer_w2 : AudioSourceMixer :=
  AudioSourceMixer.make [4, 4] 120 44100 16 80

theorem master_loop_frozen_when_stopped_witness :
    mixer_w2.is_playing = false ∧
    ((mixer_w2.master_loop_iter true).1.current_step_index =
      mixer_w2.current_step_index ∧
     (mixer_w2.master_loop_iter true).2 = none) :=
  ⟨by decide, master_loop_frozen_when_stopped mixer_w2 true (by decide)⟩

/-- C5: Track.set_bpm with bpm <= 0 raises ValueError with the track
state unchanged (the error carries the input track); Mixer.set_bpm with
bpm below min_bpm returns the failure indicator with the whole mixer
state, master tempo fields and all tracks included, unchanged. -/
theorem invalid_bpm_rejected :
    (∀ (t : AudioSourceTrack) (bpm : ℚ), bpm ≤ 0 →
      t.set_bpm bpm = .error ("BPM must be greater than 0", t)) ∧
    (∀ (m : AudioSourceMixer) (bpm : ℚ), bpm < m.min_bpm →
      m.set_bpm bpm = .ok (false, m)) := by
  constructor
  · intro t bpm hb
    unfold AudioSourceTrack.set_bpm
    rw [if_pos hb]
  · intro m bpm hb
    unfold AudioSourceMixer.set_bpm
    rw [if_pos hb]

/-- Concrete track for the C5 witness. -/
def track_w5 : AudioSourceTrack := AudioSourceTrack.make 4 120 44100 60

/-- Concrete mixer for the C5 witness (min_bpm = 80). -/
def mixer_w5 : AudioSourceMixer :=
  AudioSourceMixer.make [4] 120 44100 16 80

theorem invalid_bpm_rejected_witness :
    ((-5 : ℚ) ≤ 0 ∧ track_w5.set_bpm (-5) =
      .error ("BPM must be greater than 0", track_w5)) ∧
    ((10 : ℚ) < mixer_w5.min_bpm ∧
      mixer_w5.set_bpm 10 = .ok (false, mixer_w5)) :=
  ⟨⟨by norm_num, invalid_bpm_rejected.1 track_w5 (-5) (by norm_num)⟩,
   ⟨by decide, invalid_bpm_rejected.2 mixer_w5 10 (by decide)⟩⟩

/-- Playing mixer with a single master step (N = 1), cursor at 0. -/
def mixer_w1 : AudioSourceMixer :=
  (AudioSourceMixer.make [4] 120 44100 1 80).audio_play

/-- C1 counterexample: at N = 1 and master step s = 0, a playing master
tick notifies the sink with -1 (the code adds nb_steps only once to
s - 2), while (s - 2) mod N = (0 - 2) mod 1 = 0, so the claimed display
index (s - 2) mod N is wrong for N = 1. -/
theorem display_lag_mod_claim_false :
    mixer_w1.is_playing = true ∧ mixer_w1.nb_steps = 1 ∧
    mixer_w1.current_step_index = 0 ∧
    (mixer_w1.master_loop_iter true).2 = some (-1) ∧
    ((0 : ℤ) - 2) % (1 : ℤ) = 0 ∧
    (mixer_w1.master_loop_iter true).2 ≠
      some (((mixer_w1.current_step_index : ℤ) - 2) %
        (mixer_w1.nb_steps : ℤ)) := by
  decide

/-- Euclidean mod of a small negative number: for -N <= a < 0 the value
of a % N is a + N. -/
theorem emod_of_neg_small (a N : ℤ) (h0 : 0 ≤ a + N) (h1 : a < 0) :
    a % N = a + N := by
  have h2 : (a + N) % N = a % N := by
    have h := Int.add_mul_emod_self_left a N 1
    simp only [mul_one] at h
    exact h
  rw [← h2]
  exact Int.emod_eq_of_lt h0 (by omega)

/-- C1 (amended to N >= 2): when a master tick fires with is_playing true
and a callback installed, with master step s = current_step_index < N and
2 <= N, the Notification Sink receives (s - 2) mod N; in particular s = 0
yields N - 2, s = 1 yields N - 1, s = 2 yields 0. -/
theorem display_lag_amended (m : AudioSourceMixer)
    (hp : m.is_playing = true) (hc : m.has_step_callback = true)
    (hN : 2 ≤ m.nb_steps) (hs : m.current_step_index < m.nb_steps) :
    (m.master_loop_iter true).2 =
      some (((m.current_step_index : ℤ) - 2) % (m.nb_steps : ℤ)) ∧
    (m.current_step_index = 0 →
      (m.master_loop_iter true).2 = some ((m.nb_steps : ℤ) - 2)) ∧
    (m.current_step_index = 1 →
      (m.master_loop_iter true).2 = some ((m.nb_steps : ℤ) - 1)) ∧
    (m.current_step_index = 2 →
      (m.master_loop_iter true).2 = some 0) := by
  have hN2 : (2 : ℤ) ≤ (m.nb_steps : ℤ) := by exact_mod_cast hN
  have hs2 : ((m.current_step_index : ℤ)) < (m.nb_steps : ℤ) := by
    exact_mod_cast hs
  have hs0 : (0 : ℤ) ≤ (m.current_step_index : ℤ) := Int.natCast_nonneg _
  have key : display_step_index m.current_step_index m.nb_steps =
      ((m.current_step_index : ℤ) - 2) % (m.nb_steps : ℤ) := by
    simp only [display_step_index]
    split
    · next hd =>
      exact (emod_of_neg_small _ _ (by omega) hd).symm
    · next hd =>
      exact (Int.emod_eq_of_lt (by omega) (by omega)).symm
  have hmain : (m.master_loop_iter true).2 =
      some (((m.current_step_index : ℤ) - 2) % (m.nb_steps : ℤ)) := by
    unfold AudioSourceMixer.master_loop_iter
      AudioSourceMixer.process_master_step
    rw [hp]
    simp [hc, key]
  refine ⟨hmain, ?_, ?_, ?_⟩
  · intro h0
    rw [hmain, h0, Option.some.injEq]
    rw [show (((0 : ℕ) : ℤ)) - 2 = -2 by norm_num,
      emod_of_neg_small (-2) _ (by omega) (by norm_num)]
    omega
  · intro h0
    rw [hmain, h0, Option.some.injEq]
    rw [show (((1 : ℕ) : ℤ)) - 2 = -1 by norm_num,
      emod_of_neg_small (-1) _ (by omega) (by norm_num)]
    omega
  · intro h0
    rw [hmain, h0, Option.some.injEq]
    rw [show (((2 : ℕ) : ℤ)) - 2 = 0 by norm_num, Int.zero_emod]

/-- Playing 16-step mixer, cursor at 0, for the C1 amended witness. -/
def mixer_w1b : AudioSourceMixer :=
  (AudioSourceMixer.make [4] 120 44100 16 80).audio_play

theorem display_lag_amended_witness :
    mixer_w1b.is_playing = true ∧ mixer_w1b.has_step_callback = true ∧
    2 ≤ mixer_w1b.nb_steps ∧
    mixer_w1b.current_step_index < mixer_w1b.nb_steps ∧
    ((mixer_w1b.master_loop_iter true).2 =
      some (((mixer_w1b.current_step_index : ℤ) - 2) %
        (mixer_w1b.nb_steps : ℤ)) ∧
     (mixer_w1b.current_step_index = 0 →
      (mixer_w1b.master_loop_iter true).2 =
        some ((mixer_w1b.nb_steps : ℤ) - 2)) ∧
     (mixer_w1b.current_step_index = 1 →
      (mixer_w1b.master_loop_iter true).2 =
        some ((mixer_w1b.nb_steps : ℤ) - 1)) ∧
     (mixer_w1b.current_step_index = 2 →
      (mixer_w1b.master_loop_iter true).2 = some 0)) :=
  ⟨by decide, by decide, by decide, by decide,
   display_lag_amended mixer_w1b (by decide) (by decide) (by decide)
     (by decide)⟩

/-- The master cursor of a run keeps its nb_steps. -/
theorem master_run_nb_steps (m : AudioSourceMixer) (k : Nat) :
    (m.master_run k).nb_steps = m.nb_steps := by
  induction k with
  | zero => rfl
  | succ n ih =>
    show ((m.master_run n).process_master_step.1).nb_steps = _
    unfold AudioSourceMixer.process_master_step
    exact ih

/-- The successor step of Nat mod: (n + 1) % N = (n % N + 1) % N. -/
theorem succ_mod_eq (n N : Nat) : (n + 1) % N = (n % N + 1) % N := by
  conv_lhs => rw [← Nat.mod_add_div n N, Nat.add_right_comm,
    Nat.add_mul_mod_self_left]

/-- Master cursor after k due ticks from 0 is k mod nb_steps. -/
theorem master_run_cursor (m : AudioSourceMixer) (h1 : 1 ≤ m.nb_steps)
    (h0 : m.current_step_index = 0) (k : Nat) :
    (m.master_run k).current_step_index = k % m.nb_steps := by
  induction k with
  | zero =>
    show m.current_step_index = 0 % m.nb_steps
    rw [Nat.zero_mod]
    exact h0
  | succ n ih =>
    show ((m.master_run n).process_master_step.1).current_step_index = _
    unfold AudioSourceMixer.process_master_step
    simp only []
    rw [ih, master_run_nb_steps, succ_mod_eq]
    have hlt : n % m.nb_steps < m.nb_steps := Nat.mod_lt _ (by omega)
    split
    · next hge =>
      rw [show n % m.nb_steps + 1 = m.nb_steps by omega, Nat.mod_self]
    · next hlt2 =>
      exact (Nat.mod_eq_of_lt (by omega)).symm

/-- A track run keeps its pattern. -/
theorem track_run_steps (t : AudioSourceTrack) (k : Nat) :
    (t.run k).steps = t.steps := by
  induction k with
  | zero => rfl
  | succ n ih =>
    show ((t.run n).sequencer_tick.1).steps = _
    unfold AudioSourceTrack.sequencer_tick
    exact ih

/-- Track cursor after k due ticks from 0 is k mod pattern length. -/
theorem track_run_cursor (t : AudioSourceTrack) (h1 : 1 ≤ t.steps.length)
    (h0 : t.current_step_index = 0) (k : Nat) :
    (t.run k).current_step_index = k % t.steps.length := by
  induction k with
  | zero =>
    show t.current_step_index = 0 % t.steps.length
    rw [Nat.zero_mod]
    exact h0
  | succ n ih =>
    show ((t.run n).sequencer_tick.1).current_step_index = _
    unfold AudioSourceTrack.sequencer_tick
    simp only []
    rw [ih, track_run_steps, succ_mod_eq]
    have hlt : n % t.steps.length < t.steps.length := Nat.mod_lt _ (by omega)
    split
    · next hge =>
      rw [show n % t.steps.length + 1 = t.steps.length by omega,
        Nat.mod_self]
    · next hlt2 =>
      exact (Nat.mod_eq_of_lt (by omega)).symm

/-- C8: for every N >= 1, starting from cursor 0, after exactly N ticks
the cursor returns to 0, and after every number of ticks the cursor lies
in [0, N); this holds both for the mixer master cursor (N = nb_steps)
and for each track cursor (N = pattern length). -/
theorem cursor_wrap_mod_invariant (N : Nat) (hN : 1 ≤ N) :
    (∀ m : AudioSourceMixer, m.nb_steps = N → m.current_step_index = 0 →
      (m.master_run N).current_step_index = 0 ∧
      ∀ k, (m.master_run k).current_step_index < N) ∧
    (∀ t : AudioSourceTrack, t.steps.length = N →
      t.current_step_index = 0 →
      (t.run N).current_step_index = 0 ∧
      ∀ k, (t.run k).current_step_index < N) := by
  constructor
  · intro m hm h0
    constructor
    · rw [master_run_cursor m (by omega) h0, hm, Nat.mod_self]
    · intro k
      rw [master_run_cursor m (by omega) h0, hm]
      exact Nat.mod_lt k (by omega)
  · intro t ht h0
    constructor
    · rw [track_run_cursor t (by omega) h0, ht, Nat.mod_self]
    · intro k
      rw [track_run_cursor t (by omega) h0, ht]
      exact Nat.mod_lt k (by omega)

/-- Concrete 4-step mixer for the C8 witness. -/
def mixer_w8 : AudioSourceMixer :=
  AudioSourceMixer.make [4] 120 44100 4 80

/-- Concrete track with a 4-step pattern for the C8 witness. -/
def track_w8 : AudioSourceTrack :=
  (AudioSourceTrack.make 4 120 44100 60).set_steps [1, 0, 1, 0]

theorem cursor_wrap_mod_invariant_witness :
    (1 : Nat) ≤ 4 ∧
    mixer_w8.nb_steps = 4 ∧ mixer_w8.current_step_index = 0 ∧
    (mixer_w8.master_run 4).current_step_index = 0 ∧
    track_w8.steps.length = 4 ∧ track_w8.current_step_index = 0 ∧
    (track_w8.run 4).current_step_index = 0 :=
  ⟨by decide, by decide, by decide,
   ((cursor_wrap_mod_invariant 4 (by decide)).1 mixer_w8 (by decide)
     (by decide)).1,
   by decide, by decide,
   ((cursor_wrap_mod_invariant 4 (by decide)).2 track_w8 (by decide)
     (by decide)).1⟩

/-- Track.set_bpm on a positive bpm succeeds and updates the tempo
fields. -/
theorem track_set_bpm_pos (t : AudioSourceTrack) (bpm : ℚ)
    (hb : 0 < bpm) :
    t.set_bpm bpm = .ok
      { t with
        bpm := bpm
        step_nb_samples := computeStepNbSamples t.sample_rate bpm
        step_duration := 15 / bpm } := by
  unfold AudioSourceTrack.set_bpm AudioSourceTrack.calculate_step_duration
  rw [if_neg (not_le.mpr hb)]
  congr 1
  rw [if_pos (show 0 < bpm from hb)]

/-- The set_bpm propagation loop on a positive bpm succeeds, updating
each track. -/
theorem set_bpm_tracks_pos (ts : List AudioSourceTrack) (bpm : ℚ)
    (hb : 0 < bpm) :
    set_bpm_tracks ts bpm = .ok (ts.map (fun t =>
      { t with
        bpm := bpm
        step_nb_samples := computeStepNbSamples t.sample_rate bpm
        step_duration := 15 / bpm })) := by
  induction ts with
  | nil => rfl
  | cons t rest ih =>
    unfold set_bpm_tracks
    rw [track_set_bpm_pos t bpm hb, ih]
    rfl

/-- C3: for bpm at or above a positive min_bpm floor, Mixer.set_bpm
returns the success indicator, sets the master bpm, recomputes the
master step_duration to exactly 15 / bpm, and updates every track so
that its bpm is bpm and its step_duration is also 15 / bpm. -/
theorem mixer_set_bpm_success (m : AudioSourceMixer) (bpm : ℚ)
    (hmin : 0 < m.min_bpm) (h : m.min_bpm ≤ bpm) :
    m.set_bpm bpm = .ok (true,
      { m with
        bpm := bpm
        step_duration := 15 / bpm
        tracks := m.tracks.map (fun t =>
          { t with
            bpm := bpm
            step_nb_samples := computeStepNbSamples t.sample_rate bpm
            step_duration := 15 / bpm }) }) ∧
    ∀ t' ∈ m.tracks.map (fun t =>
        { t with
          bpm := bpm
          step_nb_samples := computeStepNbSamples t.sample_rate bpm
          step_duration := 15 / bpm }),
      t'.bpm = bpm ∧ t'.step_duration = 15 / bpm := by
  have hb : 0 < bpm := lt_of_lt_of_le hmin h
  constructor
  · simp only [AudioSourceMixer.set_bpm,
      AudioSourceMixer.calculate_step_duration, not_lt.mpr h, hb,
      if_true, if_false, set_bpm_tracks_pos m.tracks bpm hb]
  · intro t' ht'
    simp only [List.mem_map] at ht'
    obtain ⟨t, _, rfl⟩ := ht'
    exact ⟨rfl, rfl⟩

/-- Concrete mixer for the C3 witness (min_bpm = 80). -/
def mixer_w3 : AudioSourceMixer :=
  AudioSourceMixer.make [3] 120 44100 16 80

theorem mixer_set_bpm_success_witness :
    0 < mixer_w3.min_bpm ∧ mixer_w3.min_bpm ≤ 100 ∧
    (mixer_w3.set_bpm 100 = .ok (true,
      { mixer_w3 with
        bpm := 100
        step_duration := 15 / 100
        tracks := mixer_w3.tracks.map (fun t =>
          { t with
            bpm := 100
            step_nb_samples := computeStepNbSamples t.sample_rate 100
            step_duration := 15 / 100 }) }) ∧
     ∀ t' ∈ mixer_w3.tracks.map (fun t =>
         { t with
           bpm := 100
           step_nb_samples := computeStepNbSamples t.sample_rate 100
           step_duration := 15 / 100 }),
       t'.bpm = 100 ∧ t'.step_duration = 15 / 100) :=
  ⟨by decide, by decide,
   mixer_set_bpm_success mixer_w3 100 (by decide) (by decide)⟩

/-- Reading back the updated index of set_nth_track. -/
theorem set_nth_track_get_same (ts : List AudioSourceTrack) (i : Nat)
    (p : List ℤ) :
    (set_nth_track ts i p).get? i =
      (ts.get? i).map (fun t => t.set_steps p) := by
  induction ts generalizing i with
  | nil => cases i <;> rfl
  | cons t rest ih =>
    cases i with
    | zero => rfl
    | succ n => exact ih n

/-- Reading any other index of set_nth_track. -/
theorem set_nth_track_get_other (ts : List AudioSourceTrack) (i j : Nat)
    (p : List ℤ) (hj : j ≠ i) :
    (set_nth_track ts i p).get? j = ts.get? j := by
  induction ts generalizing i j with
  | nil => cases i <;> rfl
  | cons t rest ih =>
    cases i with
    | zero =>
      cases j with
      | zero => exact absurd rfl hj
      | succ k => rfl
    | succ n =>
      cases j with
      | zero => rfl
      | succ k => exact ih n k (by omega)

/-- C4: Mixer.set_steps with an out-of-range index or a pattern whose
length differs from the master step count returns the failure indicator
with the whole state, all patterns included, unchanged; with a valid
index and a matching length it returns success, assigns the pattern to
the indexed track, and leaves every other track untouched. -/
theorem mixer_set_steps_spec (m : AudioSourceMixer) (track_index : ℤ)
    (steps : List ℤ) :
    ((track_index ≥ (m.tracks.length : ℤ) ∨ track_index < 0 ∨
        steps.length ≠ m.nb_steps) →
      m.set_steps track_index steps = (false, m)) ∧
    ((0 ≤ track_index ∧ track_index < (m.tracks.length : ℤ) ∧
        steps.length = m.nb_steps) →
      m.set_steps track_index steps = (true,
        { m with
          tracks := set_nth_track m.tracks track_index.toNat steps }) ∧
      (∀ t', (set_nth_track m.tracks track_index.toNat steps).get?
          track_index.toNat = some t' → t'.steps = steps) ∧
      (∀ j, j ≠ track_index.toNat →
        (set_nth_track m.tracks track_index.toNat steps).get? j =
          m.tracks.get? j)) := by
  constructor
  · intro h
    unfold AudioSourceMixer.set_steps
    by_cases hc : track_index ≥ (m.tracks.length : ℤ) ∨ track_index < 0
    · rw [if_pos hc]
    · rw [if_neg hc, if_pos (by tauto)]
  · rintro ⟨h0, h1, h2⟩
    have hcond : ¬(track_index ≥ (m.tracks.length : ℤ) ∨
        track_index < 0) := by omega
    refine ⟨?_, ?_, ?_⟩
    · unfold AudioSourceMixer.set_steps
      rw [if_neg hcond, if_neg (by omega)]
    · intro t' ht'
      rw [set_nth_track_get_same] at ht'
      match hg : m.tracks.get? track_index.toNat with
      | none =>
        rw [hg] at ht'
        cases ht'
      | some t0 =>
        rw [hg] at ht'
        simp only [Option.map_some', Option.some.injEq] at ht'
        rw [← ht']
        rfl
    · intro j hj
      exact set_nth_track_get_other m.tracks track_index.toNat j steps hj

/-- Concrete two-track mixer with 4 master steps for the C4 witness. -/
def mixer_w4 : AudioSourceMixer :=
  AudioSourceMixer.make [3, 5] 120 44100 4 80

theorem mixer_set_steps_spec_witness :
    ((5 : ℤ) ≥ (mixer_w4.tracks.length : ℤ) ∨ (5 : ℤ) < 0 ∨
      ([] : List ℤ).length ≠ mixer_w4.nb_steps) ∧
    mixer_w4.set_steps 5 [] = (false, mixer_w4) ∧
    ((0 : ℤ) ≤ 0 ∧ (0 : ℤ) < (mixer_w4.tracks.length : ℤ) ∧
      ([1, 0, 1, 0] : List ℤ).length = mixer_w4.nb_steps) ∧
    mixer_w4.set_steps 0 [1, 0, 1, 0] = (true,
      { mixer_w4 with
        tracks := set_nth_track mixer_w4.tracks 0 [1, 0, 1, 0] }) :=
  ⟨by decide,
   (mixer_set_steps_spec mixer_w4 5 []).1 (by decide),
   by decide,
   ((mixer_set_steps_spec mixer_w4 0 [1, 0, 1, 0]).2 (by decide)).1⟩

/-- Recomputing the mixer step duration leaves nb_steps unchanged. -/
theorem calculate_step_duration_nb_steps (m : AudioSourceMixer) :
    (m.calculate_step_duration).nb_steps = m.nb_steps := by
  unfold AudioSourceMixer.calculate_step_duration
  split <;> rfl

/-- Recomputing the mixer step duration leaves the tracks unchanged. -/
theorem calculate_step_duration_tracks (m : AudioSourceMixer) :
    (m.calculate_step_duration).tracks = m.tracks := by
  unfold AudioSourceMixer.calculate_step_duration
  split <;> rfl

/-- Track.set_bpm leaves the pattern alone in both outcomes. -/
theorem track_set_bpm_preserves_steps (t : AudioSourceTrack) (b : ℚ) :
    (∀ t', t.set_bpm b = .ok t' → t'.steps = t.steps) ∧
    (∀ e t', t.set_bpm b = .error (e, t') → t' = t) := by
  unfold AudioSourceTrack.set_bpm AudioSourceTrack.calculate_step_duration
  constructor
  · intro t' h
    split at h
    · simp at h
    · rw [Except.ok.injEq] at h
      rw [← h]
      split <;> rfl
  · intro e t' h
    split at h
    · rw [Except.error.injEq, Prod.mk.injEq] at h
      exact h.2.symm
    · simp at h

/-- Tracks in the ok result of the set_bpm loop keep some input track's
pattern. -/
theorem set_bpm_tracks_steps_ok (ts : List AudioSourceTrack) (b : ℚ) :
    ∀ ts', set_bpm_tracks ts b = .ok ts' →
      ∀ t' ∈ ts', ∃ t ∈ ts, t'.steps = t.steps := by
  induction ts with
  | nil =>
    intro ts' h t' ht'
    rw [show set_bpm_tracks [] b = .ok [] from rfl, Except.ok.injEq] at h
    rw [← h] at ht'
    simp at ht'
  | cons t rest ih =>
    intro ts' h t' ht'
    unfold set_bpm_tracks at h
    cases htb : t.set_bpm b with
    | error p =>
      rw [htb] at h
      cases p
      simp at h
    | ok t1 =>
      rw [htb] at h
      cases hrec : set_bpm_tracks rest b with
      | error p =>
        rw [hrec] at h
        cases p
        simp at h
      | ok rest1 =>
        rw [hrec] at h
        simp only [Except.ok.injEq] at h
        rw [← h] at ht'
        rcases List.mem_cons.mp ht' with hh | hh
        · refine ⟨t, List.mem_cons_self t rest, ?_⟩
          rw [hh]
          exact (track_set_bpm_preserves_steps t b).1 t1 htb
        · obtain ⟨t2, ht2, hs⟩ := ih rest1 hrec t' hh
          exact ⟨t2, List.mem_cons_of_mem t ht2, hs⟩

/-- Tracks in the error result of the set_bpm loop keep some input
track's pattern. -/
theorem set_bpm_tracks_steps_err (ts : List AudioSourceTrack) (b : ℚ) :
    ∀ e ts', set_bpm_tracks ts b = .error (e, ts') →
      ∀ t' ∈ ts', ∃ t ∈ ts, t'.steps = t.steps := by
  induction ts with
  | nil =>
    intro e ts' h
    rw [show set_bpm_tracks [] b = .ok [] from rfl] at h
    simp at h
  | cons t rest ih =>
    intro e ts' h t' ht'
    unfold set_bpm_tracks at h
    cases htb : t.set_bpm b with
    | error p =>
      rw [htb] at h
      cases p with
      | mk e0 t0 =>
        simp only [Except.error.injEq, Prod.mk.injEq] at h
        rw [← h.2] at ht'
        rcases List.mem_cons.mp ht' with hh | hh
        · refine ⟨t, List.mem_cons_self t rest, ?_⟩
          rw [hh, (track_set_bpm_preserves_steps t b).2 e0 t0 htb]
        · exact ⟨t', List.mem_cons_of_mem t hh, rfl⟩
    | ok t1 =>
      rw [htb] at h
      cases hrec : set_bpm_tracks rest b with
      | error p =>
        rw [hrec] at h
        cases p with
        | mk e1 rest1 =>
          simp only [Except.error.injEq, Prod.mk.injEq] at h
          rw [← h.2] at ht'
          rcases List.mem_cons.mp ht' with hh | hh
          · refine ⟨t, List.mem_cons_self t rest, ?_⟩
            rw [hh]
            exact (track_set_bpm_preserves_steps t b).1 t1 htb
          · obtain ⟨t2, ht2, hs⟩ := ih e1 rest1 hrec t' hh
            exact ⟨t2, List.mem_cons_of_mem t ht2, hs⟩
      | ok rest1 =>
        rw [hrec] at h
        simp at h

/-- Members of tick_nth_track keep some input track's pattern. -/
theorem tick_nth_track_mem (ts : List AudioSourceTrack) (i : Nat) :
    ∀ t' ∈ tick_nth_track ts i, ∃ t ∈ ts, t'.steps = t.steps := by
  induction ts generalizing i with
  | nil =>
    intro t' ht'
    cases i <;> simp [tick_nth_track] at ht'
  | cons t rest ih =>
    intro t' ht'
    cases i with
    | zero =>
      rw [show tick_nth_track (t :: rest) 0 =
        t.sequencer_tick.1 :: rest from rfl] at ht'
      rcases List.mem_cons.mp ht' with hh | hh
      · exact ⟨t, List.mem_cons_self t rest, by rw [hh]; rfl⟩
      · exact ⟨t', List.mem_cons_of_mem t hh, rfl⟩
    | succ n =>
      rw [show tick_nth_track (t :: rest) (n + 1) =
        t :: tick_nth_track rest n from rfl] at ht'
      rcases List.mem_cons.mp ht' with hh | hh
      · exact ⟨t, List.mem_cons_self t rest, by rw [hh]⟩
      · obtain ⟨t2, ht2, hs⟩ := ih n t' hh
        exact ⟨t2, List.mem_cons_of_mem t ht2, hs⟩

/-- Members of set_nth_track are old tracks or carry the new pattern. -/
theorem set_nth_track_mem (ts : List AudioSourceTrack) (i : Nat)
    (p : List ℤ) :
    ∀ t' ∈ set_nth_track ts i p, t' ∈ ts ∨ t'.steps = p := by
  induction ts generalizing i with
  | nil =>
    intro t' ht'
    cases i <;> simp [set_nth_track] at ht'
  | cons t rest ih =>
    intro t' ht'
    cases i with
    | zero =>
      rw [show set_nth_track (t :: rest) 0 p =
        t.set_steps p :: rest from rfl] at ht'
      rcases List.mem_cons.mp ht' with hh | hh
      · exact Or.inr (by rw [hh]; rfl)
      · exact Or.inl (List.mem_cons_of_mem t hh)
    | succ n =>
      rw [show set_nth_track (t :: rest) (n + 1) p =
        t :: set_nth_track rest n p from rfl] at ht'
      rcases List.mem_cons.mp ht' with hh | hh
      · exact Or.inl (by rw [hh]; exact List.mem_cons_self t rest)
      · rcases ih n t' hh with hh2 | hh2
        · exact Or.inl (List.mem_cons_of_mem t hh2)
        · exact Or.inr hh2

/-- Track.start keeps the pattern. -/
theorem track_start_steps (t : AudioSourceTrack) :
    (t.start).steps = t.steps := by
  unfold AudioSourceTrack.start
  split <;> rfl

/-- Track.stop keeps the pattern. -/
theorem track_stop_steps (t : AudioSourceTrack) :
    (t.stop).steps = t.steps := by
  unfold AudioSourceTrack.stop
  split <;> rfl

/-- Mixer.set_bpm at or above the floor, written by cases on the track
propagation loop. -/
theorem mixer_set_bpm_not_below (m : AudioSourceMixer) (b : ℚ)
    (hb : ¬ b < m.min_bpm) :
    m.set_bpm b =
      (match set_bpm_tracks m.tracks b with
       | .error (e, ts) => .error (e,
          { AudioSourceMixer.calculate_step_duration { m with bpm := b }
            with tracks := ts })
       | .ok ts => .ok (true,
          { AudioSourceMixer.calculate_step_duration { m with bpm := b }
            with tracks := ts })) := by
  unfold AudioSourceMixer.set_bpm
  rw [if_neg hb]
  simp only [calculate_step_duration_tracks]

/-- Every mixer operation preserves the pattern-length invariant. -/
theorem applyOp_preserves_inv (m : AudioSourceMixer) (op : MixerOp)
    (h : pattern_length_inv m) : pattern_length_inv (applyOp m op) := by
  cases op with
  | setSteps i p =>
    show pattern_length_inv ((m.set_steps i p).2)
    unfold AudioSourceMixer.set_steps
    split
    · exact h
    · split
      · exact h
      · next hlen =>
        intro t' ht'
        rcases set_nth_track_mem m.tracks i.toNat p t' ht' with hh | hh
        · exact h t' hh
        · show t'.steps.length = m.nb_steps
          rw [hh]
          omega
  | setBpm b =>
    show pattern_length_inv
      (match m.set_bpm b with
       | .ok (_, m') => m'
       | .error (_, m') => m')
    by_cases hb : b < m.min_bpm
    · rw [show m.set_bpm b = .ok (false, m) from by
        unfold AudioSourceMixer.set_bpm; rw [if_pos hb]]
      exact h
    · rw [mixer_set_bpm_not_below m b hb]
      cases hr : set_bpm_tracks m.tracks b with
      | error p =>
        cases p with
        | mk e ts =>
          show pattern_length_inv
            ({ AudioSourceMixer.calculate_step_duration { m with bpm := b }
              with tracks := ts })
          intro t' ht'
          have ht2 : t' ∈ ts := ht'
          obtain ⟨t, ht, hs⟩ := set_bpm_tracks_steps_err m.tracks b e ts
            hr t' ht2
          show t'.steps.length =
            ({ AudioSourceMixer.calculate_step_duration { m with bpm := b }
              with tracks := ts }).nb_steps
          rw [hs, h t ht]
          exact (calculate_step_duration_nb_steps
            ({ m with bpm := b })).symm
      | ok ts =>
        show pattern_length_inv
          ({ AudioSourceMixer.calculate_step_duration { m with bpm := b }
            with tracks := ts })
        intro t' ht'
        have ht2 : t' ∈ ts := ht'
        obtain ⟨t, ht, hs⟩ := set_bpm_tracks_steps_ok m.tracks b ts
          hr t' ht2
        show t'.steps.length =
          ({ AudioSourceMixer.calculate_step_duration { m with bpm := b }
            with tracks := ts }).nb_steps
        rw [hs, h t ht]
        exact (calculate_step_duration_nb_steps
          ({ m with bpm := b })).symm
  | audioPlay => exact h
  | audioStop => exact h
  | startOp =>
    show pattern_length_inv m.start
    unfold AudioSourceMixer.start
    split
    · exact h
    · intro t' ht'
      have ht2 : t' ∈ m.tracks.map AudioSourceTrack.start := ht'
      simp only [List.mem_map] at ht2
      obtain ⟨t, ht, rfl⟩ := ht2
      show (t.start).steps.length = m.nb_steps
      rw [track_start_steps]
      exact h t ht
  | stopOp =>
    show pattern_length_inv m.stop
    unfold AudioSourceMixer.stop
    split
    · intro t' ht'
      have ht2 : t' ∈ m.tracks.map AudioSourceTrack.stop := ht'
      simp only [List.mem_map] at ht2
      obtain ⟨t, ht, rfl⟩ := ht2
      show (t.stop).steps.length = m.nb_steps
      rw [track_stop_steps]
      exact h t ht
    · exact h
  | masterTick d =>
    show pattern_length_inv ((m.master_loop_iter d).1)
    unfold AudioSourceMixer.master_loop_iter
    split
    · exact h
    · exact h
  | trackTick i =>
    intro t' ht'
    have ht2 : t' ∈ tick_nth_track m.tracks i := ht'
    obtain ⟨t, ht, hs⟩ := tick_nth_track_mem m.tracks i t' ht2
    show t'.steps.length = m.nb_steps
    rw [hs]
    exact h t ht

/-- The construction state satisfies the pattern-length invariant. -/
theorem make_inv (all_wav_nb : List Nat) (bpm sample_rate : ℚ)
    (nb_steps : Nat) (min_bpm : ℚ) :
    pattern_length_inv
      (AudioSourceMixer.make all_wav_nb bpm sample_rate nb_steps
        min_bpm) := by
  intro t ht
  have htr : (AudioSourceMixer.make all_wav_nb bpm sample_rate nb_steps
      min_bpm).tracks =
      AudioSourceMixer.make_tracks all_wav_nb bpm sample_rate nb_steps
        min_bpm := by
    unfold AudioSourceMixer.make
    rw [calculate_step_duration_tracks]
  have hnb : (AudioSourceMixer.make all_wav_nb bpm sample_rate nb_steps
      min_bpm).nb_steps = nb_steps := by
    unfold AudioSourceMixer.make
    rw [calculate_step_duration_nb_steps]
  rw [htr] at ht
  rw [hnb]
  simp only [AudioSourceMixer.make_tracks, List.mem_map] at ht
  obtain ⟨nb, _, rfl⟩ := ht
  show ((AudioSourceTrack.make nb bpm sample_rate min_bpm).set_steps
    (List.replicate nb_steps (0 : ℤ))).steps.length = nb_steps
  rw [show ((AudioSourceTrack.make nb bpm sample_rate min_bpm).set_steps
    (List.replicate nb_steps (0 : ℤ))).steps =
    List.replicate nb_steps (0 : ℤ) from rfl]
  exact List.length_replicate nb_steps 0

/-- C6: in every state reachable from mixer construction by any sequence
of mixer operations (set_steps, set_bpm, audio_play, audio_stop, start,
stop, master ticks and track ticks), every owned track has a pattern
whose length equals the master step count nb_steps. -/
theorem pattern_length_invariant_reachable (all_wav_nb : List Nat)
    (bpm sample_rate : ℚ) (nb_steps : Nat) (min_bpm : ℚ)
    (ops : List MixerOp) :
    pattern_length_inv (run_ops
      (AudioSourceMixer.make all_wav_nb bpm sample_rate nb_steps min_bpm)
      ops) := by
  have hrun : ∀ (l : List MixerOp) (m : AudioSourceMixer),
      pattern_length_inv m → pattern_length_inv (run_ops m l) := by
    intro l
    induction l with
    | nil => intro m hm; exact hm
    | cons op rest ih =>
      intro m hm
      exact ih (applyOp m op) (applyOp_preserves_inv m op hm)
  exact hrun ops _ (make_inv all_wav_nb bpm sample_rate nb_steps min_bpm)
